import Mathlib

/-!
Verification development for the DocxWriter-JSON repository.

The definitions below are a shallow embedding of the content-rendering
engine in `src/docxwriter/document_creator.py` (mirrored by the legacy
`src/writer.py`): the element renderers (`add_table`, `add_list`,
`add_section`, `add_image`, `add_page_break`, `add_watermark`), the markup
fragment builders (`add_hyperlink`, `set_cell_border`), the content
dispatcher (`process_content`) and the assembler
(`create_document_from_json`).

Modelling conventions:
* The in-memory document model is a `List DocNode`; each renderer returns
  the nodes it appends.  Run-level character formatting (bold/size/color
  mutations on `runs`) is not tracked; paragraph text, named style and left
  indent are.
* JSON values are the `Value` inductive.  JSON numbers are modelled as
  integers (the claims only exercise integer options; floating point is
  out of scope).  Python dicts are association lists in insertion order
  with unique keys.
* Fallible operations return `Except BuildErr`; a raised Python exception
  is an `.error`.  On a render error the partial mutations already made to
  the live document are not reproduced (no claim observes them).
* Python string primitives (`str.strip`, `str.split`, `str.startswith`)
  are re-implemented structurally over `List Char` so that concrete
  witnesses evaluate by `decide` / `rfl`.  `str.strip` uses the ASCII
  whitespace set (the claims use ASCII input only).
* External collaborators from python-docx that the source calls but does
  not define (`doc.add_picture`, `table.cell`, `part.relate_to`) are
  modelled by their documented contracts, noted at each definition.
-/

/-! ### Python string primitives -/

/-- ASCII whitespace characters stripped by Python `str.strip()`. -/
def pyWsChars : List Char := [' ', '\t', '\n', '\r', '\x0b', '\x0c']

/-- Strip every character of `cs` from both ends of a character list,
exactly like Python `str.strip(chars)`. -/
def stripCharsL (cs : List Char) (s : List Char) : List Char :=
  ((s.dropWhile (fun c => cs.contains c)).reverse.dropWhile
    (fun c => cs.contains c)).reverse

/-- Python `s.strip()`: whitespace stripped from both ends. -/
def pyStripWs (s : String) : String := String.mk (stripCharsL pyWsChars s.data)

/-- Python `s.strip(chars)`: the characters of `chars` stripped from both
ends. -/
def stripCharsStr (cs : List Char) (s : String) : String :=
  String.mk (stripCharsL cs s.data)

/-- Python `s.split("\n\n")`: greedy left-to-right split on the exact
two-newline separator, keeping empty pieces. -/
def splitNN : List Char → List (List Char)
  | '\n' :: '\n' :: rest => [] :: splitNN rest
  | c :: rest =>
    match splitNN rest with
    | [] => [[c]]
    | h :: t => (c :: h) :: t
  | [] => [[]]

/-- Split on a single character, keeping empty pieces, like Python
`s.split(c)`. -/
def splitOnChar (c : Char) : List Char → List (List Char)
  | [] => [[]]
  | d :: rest =>
    match splitOnChar c rest with
    | [] => [[d]]
    | h :: t => if d = c then [] :: h :: t else (d :: h) :: t

/-- Python `s.split("\n\n")` on strings. -/
def pySplitPara (s : String) : List String := (splitNN s.data).map String.mk

/-- Python `s.split("\n")` on strings. -/
def pySplitLines (s : String) : List String :=
  (splitOnChar '\n' s.data).map String.mk

/-- Boolean prefix test on character lists (first argument is the candidate
prefix). -/
def startsWithL : List Char → List Char → Bool
  | [], _ => true
  | _ :: _, [] => false
  | c :: cs, d :: ds => c == d && startsWithL cs ds

/-- Python `s.startswith(p)`. -/
def startsWithStr (s p : String) : Bool := startsWithL p.data s.data

/-! ### JSON values -/

/-- JSON values as parsed by `json.load`.  Numbers are modelled as
integers; dicts are association lists in insertion order. -/
inductive Value where
  | vNull
  | vBool (b : Bool)
  | vNum (n : Int)
  | vStr (s : String)
  | vList (xs : List Value)
  | vDict (kvs : List (String × Value))

/-- Python `key in d` for a dict. -/
def hasKey (kvs : List (String × Value)) (k : String) : Bool :=
  kvs.any (fun kv => kv.1 == k)

/-- Python `d.get(key, default)` (also used for `d[key]` under a
`key in d` guard, where the default is unreachable). -/
def dgetD (kvs : List (String × Value)) (k : String) (d : Value) : Value :=
  match kvs.find? (fun kv => kv.1 == k) with
  | some kv => kv.2
  | none => d

mutual

/-- Python `repr` of a JSON-shaped value, as used inside `str` of a
container.  String escaping is simplified to plain single-quoting (the
claims use strings without quote or backslash characters). -/
def pyRepr : Value → String
  | .vNull => "None"
  | .vBool true => "True"
  | .vBool false => "False"
  | .vNum n => toString n
  | .vStr s => "\x27" ++ s ++ "\x27"
  | .vList xs => "[" ++ pyReprList xs ++ "]"
  | .vDict kvs => "\x7b" ++ pyReprDict kvs ++ "\x7d"

/-- Comma-joined `repr` of list elements. -/
def pyReprList : List Value → String
  | [] => ""
  | [v] => pyRepr v
  | v :: rest => pyRepr v ++ ", " ++ pyReprList rest

/-- Comma-joined `repr` of dict entries. -/
def pyReprDict : List (String × Value) → String
  | [] => ""
  | [kv] => "\x27" ++ kv.1 ++ "\x27: " ++ pyRepr kv.2
  | kv :: rest => "\x27" ++ kv.1 ++ "\x27: " ++ pyRepr kv.2 ++ ", " ++ pyReprDict rest

end

/-- Python `str(v)`: the value itself for strings, `repr`-style rendering
for containers and scalars. -/
def pyStr (v : Value) : String :=
  match v with
  | .vStr s => s
  | v => pyRepr v

/-- Coerce an option value documented as a string (§6 content-node
shapes); non-string payloads are stringified. -/
def Value.asStr (v : Value) : String :=
  match v with
  | .vStr s => s
  | v => pyStr v

/-- Coerce an option value documented as an integer; other payloads fall
back to `0`. -/
def Value.asInt (v : Value) : Int :=
  match v with
  | .vNum n => n
  | _ => 0

/-- Extract a `table` payload (`[[string, ...], ...]` per the documented
shape); ill-shaped payloads yield no rows. -/
def Value.asRows (v : Value) : List (List String) :=
  match v with
  | .vList rows =>
    rows.map (fun r =>
      match r with
      | .vList cs => cs.map Value.asStr
      | _ => [])
  | _ => []

/-- Extract a `list` payload (`[string, ...]` per the documented shape). -/
def Value.asStrList (v : Value) : List String :=
  match v with
  | .vList xs => xs.map Value.asStr
  | _ => []

/-! ### Document model -/

/-- One node of the in-memory document model.  A paragraph records its
text, optional named style and optional left indent in points; a table
records its final cell grid, named style and header-row count. -/
inductive DocNode where
  | heading (text : String) (level : Nat)
  | para (text : String) (style : Option String) (leftIndentPt : Option Int)
  | table (cells : List (List String)) (style : String) (headerRows : Int)
  | image (path : String) (widthIn heightIn : Int)
  | pageBreak
deriving DecidableEq

/-- Errors raised while building a document. -/
inductive BuildErr where
  | missingField (f : String)
  | imageError (path : String)
  | cellOutOfRange
  | typeError (msg : String)
deriving DecidableEq

/-- Environment telling which image paths can be loaded and embedded; it
abstracts the file system seen by `doc.add_picture`. -/
def ImgEnv := String → Bool

/-! ### Element renderers

Embeddings of the `DocumentCreator` methods in
`src/docxwriter/document_creator.py`. -/

/-- `DocumentCreator.add_page_break`. -/
def addPageBreak : List DocNode := [DocNode.pageBreak]

/-- Model of the external python-docx call `doc.add_picture(path, ...)`:
it embeds the image exactly when the environment can load the path, and
raises otherwise. -/
def addPicture (env : ImgEnv) (path : String) (w h : Int) :
    Except BuildErr DocNode :=
  if env path then .ok (DocNode.image path w h) else .error (.imageError path)

/-- `DocumentCreator.add_image`: the `try`/`except` block logs the failure
and re-raises it unchanged. -/
def addImage (env : ImgEnv) (path : String) (w h : Int) :
    Except BuildErr (List DocNode) :=
  match addPicture env path w h with
  | .ok n => .ok [n]
  | .error e => .error e

/-- `DocumentCreator.add_list`: one paragraph per item in the bullet or
numbered named style, left indent `Pt(36 * (level + 1))`. -/
def addList (items : List String) (listType : String) (level : Int) :
    List DocNode :=
  if listType == "bullet" then
    items.map (fun it => DocNode.para it (some "List Bullet") (some (36 * (level + 1))))
  else
    items.map (fun it => DocNode.para it (some "List Number") (some (36 * (level + 1))))

/-- Characters of the Python strip set `"- *"` used on bullet lines in
`add_section`. -/
def bulletChars : List Char := ['-', ' ', '*']

/-- Python truthiness of the optional `style` argument: `if style:` only
assigns a non-empty style name. -/
def styleOpt (style : Option String) : Option String :=
  match style with
  | some s => if s == "" then none else some s
  | none => none

/-- Body of the per-paragraph-unit loop in `DocumentCreator.add_section`:
strip the unit, skip it if blank, render it as a bullet list when it
starts with a dash-space or asterisk-space, and otherwise as one
paragraph. -/
def renderBodyUnit (style : Option String) (u : String) : List DocNode :=
  let para := pyStripWs u
  if para == "" then []
  else if startsWithStr para "- " || startsWithStr para "* " then
    addList (((pySplitLines para).filter (fun it => !(pyStripWs it == ""))).map
      (fun it => pyStripWs (stripCharsStr bulletChars it))) "bullet" 0
  else [DocNode.para para (styleOpt style) none]

/-- `DocumentCreator.add_section`: a trimmed heading followed by the
rendering of each blank-line-delimited unit of the body text. -/
def addSection (heading text : String) (level : Nat) (style : Option String) :
    List DocNode :=
  DocNode.heading (pyStripWs heading) level ::
    (pySplitPara (pyStripWs text)).flatMap (renderBodyUnit style)

/-! ### Table renderer

`doc.add_table(rows, cols)` creates a `rows x cols` grid of empty cells;
`table.cell(i, j)` is modelled by its documented contract as a bounded
cell accessor that raises when the index leaves the grid. -/

/-- Model of the external cell accessor plus `cell.text = s`: set cell
`(i, j)` of the grid, failing when the index is outside the grid. -/
def setCell (g : List (List String)) (i j : Nat) (s : String) :
    Option (List (List String)) :=
  match g[i]? with
  | none => none
  | some row =>
    match row[j]? with
    | none => none
    | some _ => some (g.set i (row.set j s))

/-- Inner loop of `DocumentCreator.add_table` over one row: `j` enumerates
the row's cells starting at `j0`, guarded by the source's
`if j < len(row)` test (`rowLen` is the full row length). -/
def fillRowFrom (g : List (List String)) (i j : Nat) (cells : List String)
    (rowLen : Nat) : Option (List (List String)) :=
  match cells with
  | [] => some g
  | c :: rest =>
    if j < rowLen then
      match setCell g i j c with
      | none => none
      | some g2 => fillRowFrom g2 i (j + 1) rest rowLen
    else fillRowFrom g i (j + 1) rest rowLen

/-- Outer loop of `DocumentCreator.add_table`: fill row `i` and following
rows from the given data rows. -/
def fillTableFrom (g : List (List String)) (i : Nat)
    (rl : List (List String)) : Option (List (List String)) :=
  match rl with
  | [] => some g
  | r :: rest =>
    match fillRowFrom g i 0 r r.length with
    | none => none
    | some g2 => fillTableFrom g2 (i + 1) rest

/-- `DocumentCreator.add_table`: no-op on empty data, otherwise build a
`len(data) x len(data[0])` grid of empty cells and fill it cell by cell.
The header-row bold/size run formatting is recorded only through the
`headerRows` field of the node. -/
def addTable (data : List (List String)) (style : String) (headerRows : Int) :
    Except BuildErr (List DocNode) :=
  match data with
  | [] => .ok []
  | r0 :: _ =>
    let grid := List.replicate data.length (List.replicate r0.length "")
    match fillTableFrom grid 0 data with
    | none => .error .cellOutOfRange
    | some g => .ok [DocNode.table g style headerRows]

/-! ### Watermark -/

/-- Python truthiness of the optional watermark text. -/
def wmTruthy : Option String → Bool
  | none => false
  | some s => !(s == "")

/-- `DocumentCreator.add_watermark`: nothing when the watermark text is
`None` or empty, otherwise one centered white paragraph in the `Hidden`
named style. -/
def addWatermark (wm : Option String) : List DocNode :=
  match wm with
  | none => []
  | some s =>
    if s == "" then [] else [DocNode.para s (some "Hidden") none]

/-! ### Content dispatcher -/

/-- Body of the `for heading, text in content.items()` loop in
`DocumentCreator.process_content`: shape keys are tested in the source's
priority order `table`, `list`, `image`, `page_break`; otherwise the node
is rendered as a section with the key as heading and the stringified
value as body. -/
def processItem (env : ImgEnv) (k : String) (v : Value) :
    Except BuildErr (List DocNode) :=
  match v with
  | .vDict kvs =>
    if hasKey kvs "table" then
      addTable (dgetD kvs "table" .vNull).asRows
        (dgetD kvs "style" (.vStr "Table Grid")).asStr
        (dgetD kvs "header_rows" (.vNum 1)).asInt
    else if hasKey kvs "list" then
      .ok (addList (dgetD kvs "list" .vNull).asStrList
        (dgetD kvs "list_type" (.vStr "bullet")).asStr
        (dgetD kvs "level" (.vNum 0)).asInt)
    else if hasKey kvs "image" then
      addImage env (dgetD kvs "image" .vNull).asStr
        (dgetD kvs "width" (.vNum 6)).asInt
        (dgetD kvs "height" (.vNum 4)).asInt
    else if hasKey kvs "page_break" then
      .ok addPageBreak
    else
      .ok (addSection k (pyStr v) 1 none)
  | _ => .ok (addSection k (pyStr v) 1 none)

/-- The `process_content` loop over the dict items; the surrounding
`try`/`except` re-raises the first error unchanged. -/
def processItems (env : ImgEnv) : List (String × Value) →
    Except BuildErr (List DocNode)
  | [] => .ok []
  | (k, v) :: rest =>
    match processItem env k v with
    | .error e => .error e
    | .ok ns =>
      match processItems env rest with
      | .error e => .error e
      | .ok more => .ok (ns ++ more)

/-- `DocumentCreator.process_content`: iterate `content.items()`;
`content.items()` on a non-mapping raises. -/
def processContent (env : ImgEnv) (content : Value) :
    Except BuildErr (List DocNode) :=
  match content with
  | .vDict kvs => processItems env kvs
  | _ => .error (.typeError "content is not a mapping")

/-- The `for section in sections` loop of `create_document_from_json` when
the `content` field is a list. -/
def processSections (env : ImgEnv) : List Value →
    Except BuildErr (List DocNode)
  | [] => .ok []
  | v :: rest =>
    match processContent env v with
    | .error e => .error e
    | .ok ns =>
      match processSections env rest with
      | .error e => .error e
      | .ok more => .ok (ns ++ more)

/-! ### Document assembler -/

/-- Required top-level input fields, in the order the source validates
them. -/
def requiredFields : List String := ["title", "file_name", "content"]

/-- Outcome of one `create_document_from_json` build: the final document
model, the saved output path if the build reached `doc.save`, and the
raised error if it aborted. -/
structure BuildResult where
  doc : List DocNode
  saved : Option String
  err : Option BuildErr
deriving DecidableEq

/-- The `isinstance(sections, list)` branch of `create_document_from_json`:
a list of section groups is dispatched element by element, anything else
as a single section group. -/
def dispatchSections (env : ImgEnv) (sections : Value) :
    Except BuildErr (List DocNode) :=
  match sections with
  | .vList xs => processSections env xs
  | s => processContent env s

/-- `DocumentCreator.create_document_from_json` on already-parsed JSON
`data`, starting from the fresh empty document created by `__init__`:
validate the required fields, add the title heading, dispatch the content
(list of section groups or a single group), append the watermark, then
save to `output_dir / file_name`.  Non-string `title` aborts at
`add_heading`; non-string `file_name` aborts at the path join before
saving. -/
def createDocumentFromJson (env : ImgEnv) (wm : Option String)
    (outDir : String) (data : Value) : BuildResult :=
  match data with
  | .vDict kvs =>
    match requiredFields.find? (fun f => !(hasKey kvs f)) with
    | some f => { doc := [], saved := none, err := some (.missingField f) }
    | none =>
      match dgetD kvs "title" .vNull with
      | .vStr t =>
        match dispatchSections env (dgetD kvs "content" .vNull) with
        | .error e =>
          { doc := [DocNode.heading t 0], saved := none, err := some e }
        | .ok contentNodes =>
          let doc2 := DocNode.heading t 0 :: contentNodes ++ addWatermark wm
          match dgetD kvs "file_name" .vNull with
          | .vStr fn =>
            { doc := doc2, saved := some (outDir ++ "/" ++ fn), err := none }
          | _ => { doc := doc2, saved := none, err := some (.typeError "file_name is not a string") }
      | _ => { doc := [], saved := none, err := some (.typeError "title is not a string") }
  | _ => { doc := [], saved := none, err := some (.typeError "data is not a mapping") }

/-! ### Markup fragment builder: hyperlink -/

/-- XML elements as built through `OxmlElement`: tag, attributes in
assignment order, optional element text, children in append order.
Qualified names are kept as their prefixed spelling (`w:hyperlink`,
`r:id`, ...). -/
inductive Xml where
  | elem (tag : String) (attrs : List (String × String)) (text : Option String)
      (children : List Xml)

/-- One entry of a part's relationship collection
(`document.xml.rels`). -/
structure DocRel where
  rid : String
  reltype : String
  target : String
  isExternal : Bool
deriving DecidableEq

/-- The OOXML hyperlink relationship type used by `add_hyperlink`. -/
def hyperlinkRelType : String :=
  "http://schemas.openxmlformats.org/officeDocument/2006/relationships/hyperlink"

/-- Model of the external python-docx call `part.relate_to(url, reltype,
is_external=True)`: reuse the id of an existing matching external
relationship, otherwise register a new relationship under the next id and
return that id. -/
def relateTo (part : List DocRel) (target reltype : String) :
    List DocRel × String :=
  match part.find? (fun r =>
      r.reltype == reltype && r.target == target && r.isExternal) with
  | some r => (part, r.rid)
  | none =>
    let rid := "rId" ++ toString (part.length + 1)
    (part ++ [{ rid := rid, reltype := reltype, target := target,
                isExternal := true }], rid)

/-- The `w:hyperlink` element built by `add_hyperlink` once the
relationship id is known: `r:id` attribute set to the id, containing a
`w:r` run that holds an empty `w:rPr` and the display text. -/
def buildHyperlinkElem (rid text : String) : Xml :=
  Xml.elem "w:hyperlink" [("r:id", rid)] none
    [Xml.elem "w:r" [] (some text) [Xml.elem "w:rPr" [] none []]]

/-- `DocumentCreator.add_hyperlink` on a paragraph modelled as its list of
run elements: obtain the relationship id first, build the hyperlink
fragment with it, and append the fragment (wrapped in the new empty run
created by `paragraph.add_run()`) to the paragraph. -/
def addHyperlink (part : List DocRel) (para : List Xml) (text url : String) :
    List DocRel × List Xml :=
  let reg := relateTo part url hyperlinkRelType
  let frag := Xml.elem "w:r" [] none [buildHyperlinkElem reg.2 text]
  (reg.1, para ++ [frag])

mutual

/-- Values of every `r:id` attribute occurring in a fragment, in document
order. -/
def ridValues : Xml → List String
  | .elem _ attrs _ children =>
    ((attrs.filter (fun a => a.1 == "r:id")).map (fun a => a.2)) ++
      ridValuesList children

/-- Concatenated `r:id` attribute values of a list of fragments. -/
def ridValuesList : List Xml → List String
  | [] => []
  | x :: xs => ridValues x ++ ridValuesList xs

end

/-! ### Markup fragment builder: cell borders -/

/-- A table cell's `w:tcPr` properties element, modelled as the list of
its children when present (`None` when the cell has no `tcPr` yet). -/
structure TableCell where
  tcPr : Option (List Xml)

/-- Border sides recognized by `set_cell_border`. -/
def borderSides : List String := ["top", "left", "bottom", "right"]

/-- One border child element: side tag with the requested style value and
the fixed weight, spacing and automatic color. -/
def mkBorderElem (side val : String) : Xml :=
  Xml.elem ("w:" ++ side)
    [("w:val", val), ("w:sz", "4"), ("w:space", "0"), ("w:color", "auto")]
    none []

/-- The `w:tcBorders` container built by one `set_cell_border` call: one
border child per recognized side of the keyword arguments, in argument
order. -/
def mkTcBorders (kwargs : List (String × String)) : Xml :=
  Xml.elem "w:tcBorders" [] none
    ((kwargs.filter (fun kv => borderSides.contains kv.1)).map
      (fun kv => mkBorderElem kv.1 kv.2))

/-- `DocumentCreator.set_cell_border`: `get_or_add_tcPr` materializes an
empty properties element when absent, then a fresh `w:tcBorders`
container is appended to it unconditionally. -/
def setCellBorder (cell : TableCell) (kwargs : List (String × String)) :
    TableCell :=
  { tcPr := some (cell.tcPr.getD [] ++ [mkTcBorders kwargs]) }

/-- Whether an element is a `w:tcBorders` container. -/
def isTcBorders : Xml → Bool
  | .elem tag _ _ _ => tag == "w:tcBorders"

/-- Number of `w:tcBorders` containers among the children of the cell's
properties element. -/
def countTcBorders (cell : TableCell) : Nat :=
  ((cell.tcPr.getD []).filter isTcBorders).length

/-! ### Helper lemmas about grids -/

/-- Text of cell `(i, j)` of a grid, empty out of range. -/
def cellVal (g : List (List String)) (i j : Nat) : String :=
  (g.getD i []).getD j ""

/-- Well-formedness of a grid: `nrows` rows, each of length `ncols`. -/
def gridWF (g : List (List String)) (nrows ncols : Nat) : Prop :=
  g.length = nrows ∧ ∀ i, i < nrows → (g.getD i []).length = ncols

theorem getElem?_eq_some_getD {α} (l : List α) (i : Nat) (d : α)
    (h : i < l.length) : l[i]? = some (l.getD i d) := by
  simp [List.getD_eq_getElem?_getD, List.getElem?_eq_getElem h]

theorem getD_set_self {α} {l : List α} {i : Nat} {a d : α}
    (h : i < l.length) : (l.set i a).getD i d = a := by
  simp [List.getD_eq_getElem?_getD, List.getElem?_set_self h]

theorem getD_set_ne {α} {l : List α} {i j : Nat} {a d : α} (h : i ≠ j) :
    (l.set i a).getD j d = l.getD j d := by
  simp [List.getD_eq_getElem?_getD, List.getElem?_set_ne h]

theorem getD_replicate {α} {n i : Nat} {a d : α} (h : i < n) :
    (List.replicate n a).getD i d = a := by
  simp [List.getD_eq_getElem?_getD, List.getElem?_replicate, h]

theorem setCell_eq_of_lt {g : List (List String)} {i j : Nat} (s : String)
    (hi : i < g.length) (hj : j < (g.getD i []).length) :
    setCell g i j s = some (g.set i ((g.getD i []).set j s)) := by
  have hrow := getElem?_eq_some_getD g i [] hi
  have hcell := getElem?_eq_some_getD (g.getD i []) j "" hj
  simp only [setCell, hrow, hcell]

theorem setCell_none_of_ge {g : List (List String)} {i j : Nat} (s : String)
    (hi : i < g.length) (hj : (g.getD i []).length ≤ j) :
    setCell g i j s = none := by
  have hrow := getElem?_eq_some_getD g i [] hi
  have hcell : (g.getD i [])[j]? = none := List.getElem?_eq_none hj
  simp only [setCell, hrow, hcell]

/-- Filling one row succeeds when it stays within the declared row length,
and each written cell receives the corresponding text while everything
else is untouched. -/
theorem fillRowFrom_ok (cells : List String) :
    ∀ (g : List (List String)) (i j nrows ncols rowLen : Nat),
    gridWF g nrows ncols → i < nrows → rowLen = j + cells.length →
    j + cells.length ≤ ncols →
    ∃ g2, fillRowFrom g i j cells rowLen = some g2 ∧
      gridWF g2 nrows ncols ∧
      (∀ a, a ≠ i → g2.getD a [] = g.getD a []) ∧
      (∀ b, b < j → cellVal g2 i b = cellVal g i b) ∧
      (∀ b, j ≤ b → b < j + cells.length → cellVal g2 i b = cells.getD (b - j) "") ∧
      (∀ b, j + cells.length ≤ b → cellVal g2 i b = cellVal g i b) := by
  induction cells with
  | nil =>
    intro g i j nrows ncols rowLen hwf hi hrl hle
    refine ⟨g, by simp [fillRowFrom], hwf, fun a _ => rfl, fun b _ => rfl,
      ?_, fun b _ => rfl⟩
    intro b h1 h2
    simp only [List.length_nil] at h2
    omega
  | cons c rest ih =>
    intro g i j nrows ncols rowLen hwf hi hrl hle
    have hguard : j < rowLen := by simp at hrl ⊢; omega
    have hig : i < g.length := by rw [hwf.1]; exact hi
    have hrowlen : (g.getD i []).length = ncols := hwf.2 i hi
    have hj : j < (g.getD i []).length := by rw [hrowlen]; simp at hle; omega
    have hset := setCell_eq_of_lt (g := g) (i := i) (j := j) c hig hj
    set g1 := g.set i ((g.getD i []).set j c) with hg1
    have hg1wf : gridWF g1 nrows ncols := by
      constructor
      · rw [hg1, List.length_set, hwf.1]
      · intro a ha
        by_cases hai : a = i
        · subst hai
          rw [hg1, getD_set_self hig, List.length_set]
          exact hwf.2 a ha
        · rw [hg1, getD_set_ne (fun h => hai h.symm)]
          exact hwf.2 a ha
    have hg1row : g1.getD i [] = (g.getD i []).set j c :=
      getD_set_self hig
    obtain ⟨g2, hfill, hwf2, hother, hlo, hmid, hhi⟩ :=
      ih g1 i (j + 1) nrows ncols rowLen hg1wf hi (by simp at hrl ⊢; omega)
        (by simp at hle ⊢; omega)
    refine ⟨g2, ?_, hwf2, ?_, ?_, ?_, ?_⟩
    · simp only [fillRowFrom, if_pos hguard, hset]
      exact hfill
    · intro a ha
      rw [hother a ha, hg1, getD_set_ne (fun h => ha h.symm)]
    · intro b hb
      rw [hlo b (by omega)]
      unfold cellVal
      rw [hg1row, getD_set_ne (by omega)]
    · intro b hb1 hb2
      by_cases hbj : b = j
      · subst hbj
        rw [hlo b (by omega)]
        unfold cellVal
        rw [hg1row, getD_set_self hj]
        simp
      · have : b - j = (b - (j + 1)) + 1 := by omega
        rw [hmid b (by omega) (by simp at hb2 ⊢; omega), this]
        simp
    · intro b hb
      rw [hhi b (by simp at hb ⊢; omega)]
      unfold cellVal
      rw [hg1row, getD_set_ne (by simp at hb; omega)]

/-- Filling one row fails as soon as the row is longer than the grid's
column count: the cell accessor is asked for a column at or beyond the
grid. -/
theorem fillRowFrom_err (cells : List String) :
    ∀ (g : List (List String)) (i j nrows ncols rowLen : Nat),
    gridWF g nrows ncols → i < nrows → rowLen = j + cells.length →
    ncols < rowLen → j ≤ ncols →
    fillRowFrom g i j cells rowLen = none := by
  induction cells with
  | nil =>
    intro g i j nrows ncols rowLen hwf hi hrl hlt hle
    simp at hrl; omega
  | cons c rest ih =>
    intro g i j nrows ncols rowLen hwf hi hrl hlt hle
    have hguard : j < rowLen := by simp at hrl ⊢; omega
    have hig : i < g.length := by rw [hwf.1]; exact hi
    have hrowlen : (g.getD i []).length = ncols := hwf.2 i hi
    by_cases hj : j < ncols
    · have hset := setCell_eq_of_lt (g := g) (i := i) (j := j) c hig
        (by rw [hrowlen]; exact hj)
      set g1 := g.set i ((g.getD i []).set j c) with hg1
      have hg1wf : gridWF g1 nrows ncols := by
        constructor
        · rw [hg1, List.length_set, hwf.1]
        · intro a ha
          by_cases hai : a = i
          · subst hai
            rw [hg1, getD_set_self hig, List.length_set]
            exact hwf.2 a ha
          · rw [hg1, getD_set_ne (fun h => hai h.symm)]
            exact hwf.2 a ha
      simp only [fillRowFrom, if_pos hguard, hset]
      exact ih g1 i (j + 1) nrows ncols rowLen hg1wf hi
        (by simp at hrl ⊢; omega) hlt (by omega)
    · have hset := setCell_none_of_ge (g := g) (i := i) (j := j) c hig
        (by rw [hrowlen]; omega)
      simp [fillRowFrom, if_pos hguard, hset]

/-- Filling the whole grid succeeds when every row fits in the column
count; the filled cells take the input text, everything else keeps its
previous value. -/
theorem fillTableFrom_ok (rl : List (List String)) :
    ∀ (g : List (List String)) (i nrows ncols : Nat),
    gridWF g nrows ncols → i + rl.length ≤ nrows →
    (∀ r ∈ rl, r.length ≤ ncols) →
    ∃ g2, fillTableFrom g i rl = some g2 ∧
      gridWF g2 nrows ncols ∧
      (∀ a, a < i ∨ i + rl.length ≤ a → g2.getD a [] = g.getD a []) ∧
      (∀ t b, t < rl.length →
        cellVal g2 (i + t) b =
          if b < (rl.getD t []).length then (rl.getD t []).getD b ""
          else cellVal g (i + t) b) := by
  induction rl with
  | nil =>
    intro g i nrows ncols hwf hle hrows
    exact ⟨g, by simp [fillTableFrom], hwf, fun a _ => rfl,
      fun t b ht => by simp at ht⟩
  | cons r rest ih =>
    intro g i nrows ncols hwf hle hrows
    have hi : i < nrows := by simp at hle; omega
    obtain ⟨g1, hfill1, hwf1, hother1, _, hmid1, hhi1⟩ :=
      fillRowFrom_ok r g i 0 nrows ncols r.length hwf hi (by omega)
        (by simpa using hrows r (List.mem_cons_self r rest))
    obtain ⟨g2, hfill2, hwf2, hother2, hcells2⟩ :=
      ih g1 (i + 1) nrows ncols hwf1 (by simp at hle ⊢; omega)
        (fun r2 h2 => hrows r2 (List.mem_cons_of_mem r h2))
    refine ⟨g2, ?_, hwf2, ?_, ?_⟩
    · simp only [fillTableFrom, hfill1]
      exact hfill2
    · intro a ha
      simp only [List.length_cons] at ha
      rw [hother2 a (by omega), hother1 a (by omega)]
    · intro t b ht
      match t with
      | 0 =>
        have hrow : g2.getD (i + 0) [] = g1.getD (i + 0) [] :=
          hother2 (i + 0) (by omega)
        have hcv : cellVal g2 (i + 0) b = cellVal g1 i b := by
          unfold cellVal
          rw [hrow]
          simp
        rw [hcv]
        simp only [Nat.add_zero, List.getD_cons_zero]
        by_cases hb : b < r.length
        · rw [if_pos hb, hmid1 b (by omega) (by omega)]
          simp
        · rw [if_neg hb, hhi1 b (by omega)]
      | t' + 1 =>
        have ht' : t' < rest.length := by
          simp only [List.length_cons] at ht
          omega
        have heq : i + (t' + 1) = (i + 1) + t' := by omega
        have hrow1 : g1.getD ((i + 1) + t') [] = g.getD ((i + 1) + t') [] :=
          hother1 _ (by omega)
        simp only [List.getD_eq_getElem?_getD] at hrow1
        rw [heq, hcells2 t' b ht']
        simp only [cellVal, List.getD_eq_getElem?_getD, List.getElem?_cons_succ,
          hrow1]

theorem getD_replicate_self {α} (n i : Nat) (a : α) :
    (List.replicate n a).getD i a = a := by
  by_cases h : i < n
  · exact getD_replicate h
  · exact List.getD_eq_default _ _ (by rw [List.length_replicate]; omega)

/-- Filling the whole grid fails when some row is longer than the column
count. -/
theorem fillTableFrom_err (rl : List (List String)) :
    ∀ (g : List (List String)) (i nrows ncols : Nat),
    gridWF g nrows ncols → i + rl.length ≤ nrows →
    (∃ r ∈ rl, ncols < r.length) →
    fillTableFrom g i rl = none := by
  induction rl with
  | nil =>
    intro g i nrows ncols _ _ hbad
    simp at hbad
  | cons r rest ih =>
    intro g i nrows ncols hwf hle hbad
    have hi : i < nrows := by simp at hle; omega
    by_cases hr : ncols < r.length
    · have herr := fillRowFrom_err r g i 0 nrows ncols r.length hwf hi
        (by omega) (by omega) (by omega)
      simp [fillTableFrom, herr]
    · obtain ⟨g1, hfill1, hwf1, _, _, _, _⟩ :=
        fillRowFrom_ok r g i 0 nrows ncols r.length hwf hi (by omega)
          (by omega)
      simp only [fillTableFrom, hfill1]
      obtain ⟨r2, hmem, hlen⟩ := hbad
      rcases List.mem_cons.1 hmem with heq | hmem2
      · subst heq; omega
      · exact ih g1 (i + 1) nrows ncols hwf1 (by simp at hle ⊢; omega)
          ⟨r2, hmem2, hlen⟩

/-! ### Claim C2 and C10: table dimensions -/

/-- C2: for every non-empty table spec whose rows are no longer than the
first row, `add_table` succeeds and produces one table node with row count
equal to the number of input rows and column count equal to the length of
the first input row; shorter rows fill only their own length and the
remaining cells stay empty. -/
theorem addTable_shorter_rows (data : List (List String)) (style : String)
    (hr : Int) (h1 : data ≠ [])
    (h2 : ∀ r ∈ data, r.length ≤ (data.headD []).length) :
    ∃ cells, addTable data style hr = .ok [DocNode.table cells style hr] ∧
      cells.length = data.length ∧
      (∀ a, a < cells.length →
        (cells.getD a []).length = (data.headD []).length) ∧
      (∀ a b, (cells.getD a []).getD b "" = (data.getD a []).getD b "") := by
  cases data with
  | nil => exact absurd rfl h1
  | cons r0 rest =>
    obtain ⟨g2, hfill, hwf2, hother, hcells⟩ :=
      fillTableFrom_ok (r0 :: rest)
        (List.replicate (r0 :: rest).length (List.replicate r0.length "")) 0
        (r0 :: rest).length r0.length
        ⟨List.length_replicate _ _, fun i hi => by
          rw [getD_replicate hi]
          exact List.length_replicate _ _⟩
        (by omega)
        (fun r hmem => by simpa using h2 r hmem)
    refine ⟨g2, ?_, ?_, ?_, ?_⟩
    · simp only [addTable, hfill]
    · rw [hwf2.1]
    · intro a ha
      rw [hwf2.1] at ha
      simp only [List.headD_cons]
      exact hwf2.2 a ha
    · intro a b
      by_cases ha : a < (r0 :: rest).length
      · have hc := hcells a b ha
        simp only [Nat.zero_add] at hc
        unfold cellVal at hc
        by_cases hb : b < ((r0 :: rest).getD a []).length
        · rw [if_pos hb] at hc
          exact hc
        · rw [if_neg hb] at hc
          rw [hc, getD_replicate ha, getD_replicate_self]
          exact (List.getD_eq_default _ _ (by omega)).symm
      · have hg2 : g2.getD a [] = [] :=
          List.getD_eq_default _ _ (by rw [hwf2.1]; omega)
        have hdata : (r0 :: rest).getD a [] = [] :=
          List.getD_eq_default _ _ (by omega)
        rw [hg2, hdata]

/-- Witness for C2 at a concrete ragged table. -/
theorem addTable_shorter_rows_witness :
    ([["a", "b"], ["1"]] : List (List String)) ≠ [] ∧
    ∃ cells, addTable [["a", "b"], ["1"]] "Table Grid" 1 =
        .ok [DocNode.table cells "Table Grid" 1] ∧
      cells.length = ([["a", "b"], ["1"]] : List (List String)).length ∧
      (∀ a, a < cells.length →
        (cells.getD a []).length =
          (([["a", "b"], ["1"]] : List (List String)).headD []).length) ∧
      (∀ a b, (cells.getD a []).getD b "" =
        (([["a", "b"], ["1"]] : List (List String)).getD a []).getD b "") :=
  ⟨by decide,
    addTable_shorter_rows [["a", "b"], ["1"]] "Table Grid" 1 (by decide)
      (by decide)⟩

/-- C10: for every table spec containing a row strictly longer than the
first row, `add_table` fails: the inner guard never prevents requesting a
cell at a column index at or beyond the column count fixed by the first
row, and the cell accessor raises there. -/
theorem addTable_long_row (data : List (List String)) (style : String)
    (hr : Int) (h2 : ∃ r ∈ data, (data.headD []).length < r.length) :
    addTable data style hr = .error .cellOutOfRange := by
  cases data with
  | nil => simp at h2
  | cons r0 rest =>
    have herr := fillTableFrom_err (r0 :: rest)
      (List.replicate (r0 :: rest).length (List.replicate r0.length "")) 0
      (r0 :: rest).length r0.length
      ⟨List.length_replicate _ _, fun i hi => by
        rw [getD_replicate hi]
        exact List.length_replicate _ _⟩
      (by omega)
      (by
        obtain ⟨r, hm, hl⟩ := h2
        exact ⟨r, hm, by simpa using hl⟩)
    simp only [addTable, herr]

/-- Witness for C10 at a concrete table whose second row is longer than
the first. -/
theorem addTable_long_row_witness :
    (∃ r ∈ ([["a"], ["1", "2"]] : List (List String)),
      (([["a"], ["1", "2"]] : List (List String)).headD []).length < r.length) ∧
    addTable [["a"], ["1", "2"]] "Table Grid" 1 = .error .cellOutOfRange :=
  ⟨by decide, addTable_long_row [["a"], ["1", "2"]] "Table Grid" 1 (by decide)⟩

/-! ### Claim C9: list indentation -/

/-- C9: every paragraph emitted by `add_list` carries a left indent of the
fixed 36-point unit multiplied by `(level + 1)`, and that indent is
strictly larger at `level + 1` than at `level`. -/
theorem addList_indent (items : List String) (listType : String)
    (level : Int) :
    (∀ n ∈ addList items listType level,
      ∃ t s, n = DocNode.para t (some s) (some (36 * (level + 1)))) ∧
    36 * ((level + 1) + 1) > 36 * (level + 1) := by
  constructor
  · intro n hn
    unfold addList at hn
    split at hn <;>
      · obtain ⟨t, _, rfl⟩ := List.mem_map.1 hn
        exact ⟨t, _, rfl⟩
  · omega

/-- Witness for C9 at a concrete one-item bullet list at level 0. -/
theorem addList_indent_witness :
    DocNode.para "a" (some "List Bullet") (some (36 * ((0 : Int) + 1))) ∈
      addList ["a"] "bullet" 0 ∧
    ∃ t s,
      DocNode.para "a" (some "List Bullet") (some (36 * ((0 : Int) + 1))) =
        DocNode.para t (some s) (some (36 * ((0 : Int) + 1))) :=
  ⟨by decide, (addList_indent ["a"] "bullet" 0).1 _ (by decide)⟩

/-! ### Claim C6: cell border container duplication -/

/-- C6: a second `set_cell_border` call on the same cell appends a second
`w:tcBorders` container as a sibling of the first instead of replacing or
merging it, so after two calls the cell's properties node holds two
containers. -/
theorem setCellBorder_twice (cell : TableCell)
    (kw1 kw2 : List (String × String)) :
    (setCellBorder (setCellBorder cell kw1) kw2).tcPr =
      some (cell.tcPr.getD [] ++ [mkTcBorders kw1, mkTcBorders kw2]) ∧
    countTcBorders (setCellBorder (setCellBorder cell kw1) kw2) =
      countTcBorders cell + 2 := by
  constructor
  · simp [setCellBorder]
  · simp [countTcBorders, setCellBorder, List.filter_append, isTcBorders,
      mkTcBorders]

/-! ### Claim C7: hyperlink relationship id -/

/-- C7: `add_hyperlink` registers the external relationship for the URL
first and embeds the returned id in the hyperlink element it then builds;
the fragment appended to the paragraph contains exactly one `r:id`
reference, whose value is that id, and the relationship for the URL is
present in the resulting collection under that id. -/
theorem addHyperlink_relid (part : List DocRel) (para : List Xml)
    (text url : String) :
    (addHyperlink part para text url).1 = (relateTo part url hyperlinkRelType).1 ∧
    (addHyperlink part para text url).2 =
      para ++ [Xml.elem "w:r" [] none
        [buildHyperlinkElem (relateTo part url hyperlinkRelType).2 text]] ∧
    ridValuesList ((addHyperlink part para text url).2.drop para.length) =
      [(relateTo part url hyperlinkRelType).2] ∧
    ∃ r ∈ (addHyperlink part para text url).1,
      r.rid = (relateTo part url hyperlinkRelType).2 ∧ r.target = url ∧
        r.isExternal = true := by
  refine ⟨rfl, rfl, ?_, ?_⟩
  · show ridValuesList ((para ++ [Xml.elem "w:r" [] none
        [buildHyperlinkElem (relateTo part url hyperlinkRelType).2 text]]).drop
          para.length) = _
    rw [List.drop_left]
    simp [ridValuesList, ridValues, buildHyperlinkElem]
  · show ∃ r ∈ (relateTo part url hyperlinkRelType).1, _
    unfold relateTo
    cases hfind : part.find? (fun r =>
        r.reltype == hyperlinkRelType && r.target == url && r.isExternal) with
    | none =>
      simp only [hfind]
      exact ⟨_, List.mem_append_right _ (List.mem_singleton_self _),
        rfl, rfl, rfl⟩
    | some r =>
      simp only [hfind]
      have hmem := List.mem_of_find?_eq_some hfind
      have hpred := List.find?_some hfind
      simp only [Bool.and_eq_true, beq_iff_eq] at hpred
      exact ⟨r, hmem, rfl, hpred.1.2, hpred.2⟩

/-! ### Claim C8: image failures abort the build -/

/-- C8: `add_image` fails exactly when loading the image at the path
fails; the load error is re-raised unchanged, never swallowed or
downgraded, and through the dispatcher a bad image path aborts the
current content processing with that error. -/
theorem addImage_error_iff (env : ImgEnv) (path : String) (w h : Int) :
    (addImage env path w h = .error (.imageError path) ↔ env path = false) ∧
    (env path = true →
      addImage env path w h = .ok [DocNode.image path w h]) ∧
    (∀ e, addPicture env path w h = .error e →
      addImage env path w h = .error e) ∧
    (∀ k, env path = false →
      processContent env (.vDict [(k, .vDict [("image", .vStr path)])]) =
        .error (.imageError path)) := by
  refine ⟨⟨?_, ?_⟩, ?_, ?_, ?_⟩
  · intro he
    cases henv : env path
    · rfl
    · exfalso
      simp [addImage, addPicture, henv] at he
  · intro henv
    simp [addImage, addPicture, henv]
  · intro henv
    simp [addImage, addPicture, henv]
  · intro e he
    simp only [addImage, he]
  · intro k henv
    simp [processContent, processItems, processItem, hasKey, dgetD,
      addImage, addPicture, henv, Value.asStr, Value.asInt]

/-- Witness for C8: a path the environment cannot load aborts the
dispatch of an image node with the image error. -/
theorem addImage_error_iff_witness :
    ((fun _ => false) : ImgEnv) "img.png" = false ∧
    processContent (fun _ => false)
        (.vDict [("S", .vDict [("image", .vStr "img.png")])]) =
      .error (.imageError "img.png") :=
  ⟨rfl, (addImage_error_iff (fun _ => false) "img.png" 6 4).2.2.2 "S" rfl⟩

/-! ### Claim C1: dispatcher priority -/

/-- Dispatching a single content node goes through `process_content`'s
loop exactly once. -/
theorem processContent_singleton (env : ImgEnv) (k : String) (v : Value) :
    processContent env (.vDict [(k, v)]) = processItem env k v := by
  show processItems env [(k, v)] = processItem env k v
  cases h : processItem env k v with
  | error e => simp [processItems, h]
  | ok ns => simp [processItems, h]

/-- C1: for a node whose value is a mapping, the dispatcher tests the
shape keys in the fixed priority order `table`, `list`, `image`,
`page_break` and delegates to the first present key's renderer with the
documented option defaults, so a node with several shape keys is rendered
only by the highest-priority one; with no shape key present, or a
non-mapping value, the node becomes a section with the key as heading and
the stringified value as body. -/
theorem processContent_dispatch (env : ImgEnv) (k : String) (v : Value) :
    (∀ kvs, v = Value.vDict kvs →
      (hasKey kvs "table" = true →
        processContent env (.vDict [(k, v)]) =
          addTable (dgetD kvs "table" .vNull).asRows
            (dgetD kvs "style" (.vStr "Table Grid")).asStr
            (dgetD kvs "header_rows" (.vNum 1)).asInt) ∧
      (hasKey kvs "table" = false → hasKey kvs "list" = true →
        processContent env (.vDict [(k, v)]) =
          .ok (addList (dgetD kvs "list" .vNull).asStrList
            (dgetD kvs "list_type" (.vStr "bullet")).asStr
            (dgetD kvs "level" (.vNum 0)).asInt)) ∧
      (hasKey kvs "table" = false → hasKey kvs "list" = false →
        hasKey kvs "image" = true →
        processContent env (.vDict [(k, v)]) =
          addImage env (dgetD kvs "image" .vNull).asStr
            (dgetD kvs "width" (.vNum 6)).asInt
            (dgetD kvs "height" (.vNum 4)).asInt) ∧
      (hasKey kvs "table" = false → hasKey kvs "list" = false →
        hasKey kvs "image" = false → hasKey kvs "page_break" = true →
        processContent env (.vDict [(k, v)]) = .ok [DocNode.pageBreak]) ∧
      (hasKey kvs "table" = false → hasKey kvs "list" = false →
        hasKey kvs "image" = false → hasKey kvs "page_break" = false →
        processContent env (.vDict [(k, v)]) =
          .ok (addSection k (pyStr v) 1 none))) ∧
    ((∀ kvs, v ≠ Value.vDict kvs) →
      processContent env (.vDict [(k, v)]) =
        .ok (addSection k (pyStr v) 1 none)) := by
  rw [processContent_singleton]
  constructor
  · intro kvs hv
    subst hv
    refine ⟨?_, ?_, ?_, ?_, ?_⟩
    · intro ht
      simp [processItem, ht]
    · intro ht hl
      simp [processItem, ht, hl]
    · intro ht hl hi
      simp [processItem, ht, hl, hi]
    · intro ht hl hi hp
      simp [processItem, ht, hl, hi, hp, addPageBreak]
    · intro ht hl hi hp
      simp [processItem, ht, hl, hi, hp]
  · intro hne
    cases v with
    | vDict kvs => exact absurd rfl (hne kvs)
    | vNull => rfl
    | vBool b => rfl
    | vNum n => rfl
    | vStr s => rfl
    | vList xs => rfl

/-- Witness for C1: a node carrying both a `table` and a `list` key is
dispatched to the table renderer. -/
theorem processContent_dispatch_witness :
    hasKey [("table", Value.vList [Value.vList [Value.vStr "a"]]),
            ("list", Value.vList [Value.vStr "x"])] "table" = true ∧
    processContent (fun _ => true)
        (.vDict [("K", .vDict
          [("table", Value.vList [Value.vList [Value.vStr "a"]]),
           ("list", Value.vList [Value.vStr "x"])])]) =
      addTable
        (dgetD [("table", Value.vList [Value.vList [Value.vStr "a"]]),
                ("list", Value.vList [Value.vStr "x"])] "table" .vNull).asRows
        (dgetD [("table", Value.vList [Value.vList [Value.vStr "a"]]),
                ("list", Value.vList [Value.vStr "x"])] "style"
          (.vStr "Table Grid")).asStr
        (dgetD [("table", Value.vList [Value.vList [Value.vStr "a"]]),
                ("list", Value.vList [Value.vStr "x"])] "header_rows"
          (.vNum 1)).asInt :=
  ⟨rfl,
    ((processContent_dispatch (fun _ => true) "K" _).1 _ rfl).1 rfl⟩

/-! ### Claim C3: bullet units in section bodies -/

/-- Formalisation of the claim's wording for the item text: only LEADING
bullet-marker characters and whitespace are removed from a line. -/
def leadingMarkersStripped (line : String) : String :=
  String.mk (line.data.dropWhile (fun c => bulletChars.contains c))

/-- C3 counterexample: on the bullet line `"- item -"` the code produces
the item text `"item"` because Python `strip("- *")` removes the marker
characters from BOTH ends, not the claim's leading-only text `"item -"`. -/
theorem renderBodyUnit_strip_cex :
    renderBodyUnit none "- item -" =
      [DocNode.para "item" (some "List Bullet") (some 36)] ∧
    leadingMarkersStripped "- item -" = "item -" ∧
    renderBodyUnit none "- item -" ≠
      [DocNode.para (leadingMarkersStripped "- item -")
        (some "List Bullet") (some 36)] := by decide

/-- C3 (amended): a body paragraph unit starting with dash-space or
asterisk-space is rendered entirely as level-0 bullet list items, one per
non-blank line, with the bullet-marker characters and whitespace stripped
from BOTH ends of each line, and never as a literal paragraph. -/
theorem renderBodyUnit_bullet (style : Option String) (u : String)
    (hb : startsWithStr (pyStripWs u) "- " = true ∨
          startsWithStr (pyStripWs u) "* " = true) :
    renderBodyUnit style u =
      ((pySplitLines (pyStripWs u)).filter
          (fun it => !(pyStripWs it == ""))).map
        (fun it =>
          DocNode.para (pyStripWs (stripCharsStr bulletChars it))
            (some "List Bullet") (some 36)) ∧
    ∀ n ∈ renderBodyUnit style u,
      ∃ t, n = DocNode.para t (some "List Bullet") (some 36) := by
  have hcase : (pyStripWs u == "") = false := by
    cases hpe : (pyStripWs u == "") with
    | false => rfl
    | true =>
      have heq : pyStripWs u = "" := eq_of_beq hpe
      rcases hb with h | h
      · rw [heq] at h
        exact absurd h (by decide)
      · rw [heq] at h
        exact absurd h (by decide)
  have hor : (startsWithStr (pyStripWs u) "- " ||
      startsWithStr (pyStripWs u) "* ") = true := by
    rcases hb with h | h <;> simp [h]
  have h1 : renderBodyUnit style u =
      ((pySplitLines (pyStripWs u)).filter
          (fun it => !(pyStripWs it == ""))).map
        (fun it =>
          DocNode.para (pyStripWs (stripCharsStr bulletChars it))
            (some "List Bullet") (some 36)) := by
    simp only [renderBodyUnit, hcase, Bool.false_eq_true, if_false, hor,
      if_true, addList, List.map_map]
    norm_num
  refine ⟨h1, ?_⟩
  intro n hn
  rw [h1] at hn
  obtain ⟨it, _, rfl⟩ := List.mem_map.1 hn
  exact ⟨_, rfl⟩

/-- Witness for C3's amended statement at the unit `"- item -"`. -/
theorem renderBodyUnit_bullet_witness :
    (startsWithStr (pyStripWs "- item -") "- " = true ∨
     startsWithStr (pyStripWs "- item -") "* " = true) ∧
    (renderBodyUnit none "- item -" =
      ((pySplitLines (pyStripWs "- item -")).filter
          (fun it => !(pyStripWs it == ""))).map
        (fun it =>
          DocNode.para (pyStripWs (stripCharsStr bulletChars it))
            (some "List Bullet") (some 36)) ∧
     ∀ n ∈ renderBodyUnit none "- item -",
       ∃ t, n = DocNode.para t (some "List Bullet") (some 36)) :=
  ⟨Or.inl (by decide),
    renderBodyUnit_bullet none "- item -" (Or.inl (by decide))⟩

/-! ### Claim C4: required-field validation -/

/-- C4: when any of the required top-level fields `title`, `file_name`,
`content` is absent from the input mapping, the build raises the
missing-field error before any rendering: the document model keeps no
nodes from this build and no output file is saved. -/
theorem createDocument_missing_field (env : ImgEnv) (wm : Option String)
    (outDir : String) (kvs : List (String × Value))
    (h : hasKey kvs "title" = false ∨ hasKey kvs "file_name" = false ∨
         hasKey kvs "content" = false) :
    ∃ f ∈ requiredFields,
      createDocumentFromJson env wm outDir (.vDict kvs) =
        { doc := [], saved := none, err := some (.missingField f) } := by
  cases h1 : hasKey kvs "title" with
  | false =>
    refine ⟨"title", by simp [requiredFields], ?_⟩
    simp [createDocumentFromJson, requiredFields, List.find?, h1]
  | true =>
    cases h2 : hasKey kvs "file_name" with
    | false =>
      refine ⟨"file_name", by simp [requiredFields], ?_⟩
      simp [createDocumentFromJson, requiredFields, List.find?, h1, h2]
    | true =>
      cases h3 : hasKey kvs "content" with
      | false =>
        refine ⟨"content", by simp [requiredFields], ?_⟩
        simp [createDocumentFromJson, requiredFields, List.find?, h1, h2, h3]
      | true => simp_all

/-- Witness for C4 at an input mapping lacking `file_name` and
`content`. -/
theorem createDocument_missing_field_witness :
    (hasKey [("title", Value.vStr "T")] "title" = false ∨
     hasKey [("title", Value.vStr "T")] "file_name" = false ∨
     hasKey [("title", Value.vStr "T")] "content" = false) ∧
    ∃ f ∈ requiredFields,
      createDocumentFromJson (fun _ => true) none "data"
          (.vDict [("title", Value.vStr "T")]) =
        { doc := [], saved := none, err := some (.missingField f) } :=
  ⟨Or.inr (Or.inl rfl),
    createDocument_missing_field (fun _ => true) none "data"
      [("title", Value.vStr "T")] (Or.inr (Or.inl rfl))⟩

/-! ### Claim C5: watermark -/

/-- Whether a node is a paragraph in the `Hidden` watermark style. -/
def isHiddenPara : DocNode → Bool
  | .para _ (some s) _ => s == "Hidden"
  | _ => false

/-- Number of hidden watermark paragraphs in a document. -/
def countHidden (doc : List DocNode) : Nat :=
  (doc.filter isHiddenPara).length

theorem countHidden_append (a b : List DocNode) :
    countHidden (a ++ b) = countHidden a + countHidden b := by
  simp [countHidden, List.filter_append]

theorem countHidden_addList (items : List String) (lt : String) (lvl : Int) :
    countHidden (addList items lt lvl) = 0 := by
  unfold addList
  split <;>
    · simp only [countHidden, List.length_eq_zero, List.filter_eq_nil_iff]
      intro n hn
      obtain ⟨t, _, rfl⟩ := List.mem_map.1 hn
      simp [isHiddenPara]

theorem countHidden_renderBodyUnit (u : String) :
    countHidden (renderBodyUnit none u) = 0 := by
  simp only [renderBodyUnit]
  split
  · rfl
  · split
    · exact countHidden_addList _ _ _
    · simp [countHidden, isHiddenPara, styleOpt]

theorem countHidden_flatMapUnits (units : List String) :
    countHidden (units.flatMap (renderBodyUnit none)) = 0 := by
  induction units with
  | nil => rfl
  | cons u rest ih =>
    rw [List.flatMap_cons, countHidden_append,
      countHidden_renderBodyUnit, ih]

theorem countHidden_addSection (h b : String) (lvl : Nat) :
    countHidden (addSection h b lvl none) = 0 := by
  have hu := countHidden_flatMapUnits (pySplitPara (pyStripWs b))
  unfold addSection
  rw [← List.singleton_append, countHidden_append, hu]
  rfl

theorem countHidden_addTable (data : List (List String)) (style : String)
    (hr : Int) (ns : List DocNode) (h : addTable data style hr = .ok ns) :
    countHidden ns = 0 := by
  cases data with
  | nil =>
    simp only [addTable] at h
    cases h
    rfl
  | cons r0 rest =>
    simp only [addTable] at h
    cases hfill : fillTableFrom
        (List.replicate (r0 :: rest).length (List.replicate r0.length ""))
        0 (r0 :: rest) with
    | none =>
      rw [hfill] at h
      cases h
    | some g =>
      rw [hfill] at h
      cases h
      rfl

theorem countHidden_processItem (env : ImgEnv) (k : String) (v : Value)
    (ns : List DocNode) (h : processItem env k v = .ok ns) :
    countHidden ns = 0 := by
  cases v with
  | vDict kvs =>
    simp only [processItem] at h
    split at h
    · exact countHidden_addTable _ _ _ _ h
    · split at h
      · cases h
        exact countHidden_addList _ _ _
      · split at h
        · simp only [addImage, addPicture] at h
          split at h
          · rename_i n heq
            split at heq
            · cases heq
              cases h
              rfl
            · cases heq
          · cases h
        · split at h
          · cases h
            rfl
          · cases h
            exact countHidden_addSection _ _ _
  | vNull =>
    simp only [processItem] at h
    cases h
    exact countHidden_addSection _ _ _
  | vBool b =>
    simp only [processItem] at h
    cases h
    exact countHidden_addSection _ _ _
  | vNum n =>
    simp only [processItem] at h
    cases h
    exact countHidden_addSection _ _ _
  | vStr s =>
    simp only [processItem] at h
    cases h
    exact countHidden_addSection _ _ _
  | vList xs =>
    simp only [processItem] at h
    cases h
    exact countHidden_addSection _ _ _

theorem countHidden_processItems (env : ImgEnv) :
    ∀ (kvs : List (String × Value)) (ns : List DocNode),
    processItems env kvs = .ok ns → countHidden ns = 0 := by
  intro kvs
  induction kvs with
  | nil =>
    intro ns h
    cases h
    rfl
  | cons kv rest ih =>
    intro ns h
    cases hpi : processItem env kv.1 kv.2 with
    | error e =>
      simp only [processItems, hpi] at h
      cases h
    | ok ns1 =>
      cases hrest : processItems env rest with
      | error e =>
        simp only [processItems, hpi, hrest] at h
        cases h
      | ok more =>
        simp only [processItems, hpi, hrest] at h
        cases h
        rw [countHidden_append,
          countHidden_processItem env kv.1 kv.2 ns1 hpi, ih more hrest]

theorem countHidden_processContent (env : ImgEnv) (v : Value)
    (ns : List DocNode) (h : processContent env v = .ok ns) :
    countHidden ns = 0 := by
  cases v with
  | vDict kvs => exact countHidden_processItems env kvs ns h
  | vNull => cases h
  | vBool b => cases h
  | vNum n => cases h
  | vStr s => cases h
  | vList xs => cases h

theorem countHidden_processSections (env : ImgEnv) :
    ∀ (xs : List Value) (ns : List DocNode),
    processSections env xs = .ok ns → countHidden ns = 0 := by
  intro xs
  induction xs with
  | nil =>
    intro ns h
    cases h
    rfl
  | cons v rest ih =>
    intro ns h
    cases hpc : processContent env v with
    | error e =>
      simp only [processSections, hpc] at h
      cases h
    | ok ns1 =>
      cases hrest : processSections env rest with
      | error e =>
        simp only [processSections, hpc, hrest] at h
        cases h
      | ok more =>
        simp only [processSections, hpc, hrest] at h
        cases h
        rw [countHidden_append,
          countHidden_processContent env v ns1 hpc, ih more hrest]

theorem countHidden_dispatchSections (env : ImgEnv) (sections : Value)
    (ns : List DocNode) (h : dispatchSections env sections = .ok ns) :
    countHidden ns = 0 := by
  cases sections with
  | vList xs =>
    simp only [dispatchSections] at h
    exact countHidden_processSections env xs ns h
  | vNull =>
    simp only [dispatchSections] at h
    exact countHidden_processContent env _ ns h
  | vBool b =>
    simp only [dispatchSections] at h
    exact countHidden_processContent env _ ns h
  | vNum n =>
    simp only [dispatchSections] at h
    exact countHidden_processContent env _ ns h
  | vStr s =>
    simp only [dispatchSections] at h
    exact countHidden_processContent env _ ns h
  | vDict kvs =>
    simp only [dispatchSections] at h
    exact countHidden_processContent env _ ns h

theorem addWatermark_of_not_truthy (wm : Option String)
    (h : wmTruthy wm = false) : addWatermark wm = [] := by
  cases wm with
  | none => rfl
  | some s =>
    simp only [wmTruthy, Bool.not_eq_eq_eq_not, Bool.not_false] at h
    simp [addWatermark, h]

/-- C5: in a build that reaches the save step, an empty or absent
watermark text leaves no hidden-style paragraph in the document, and a
non-empty one yields exactly one hidden-style paragraph, appended after
all content as the document's last node. -/
theorem build_watermark (env : ImgEnv) (wm : Option String)
    (outDir : String) (data : Value)
    (hok : (createDocumentFromJson env wm outDir data).err = none) :
    (wmTruthy wm = false →
      countHidden (createDocumentFromJson env wm outDir data).doc = 0) ∧
    (∀ s, wm = some s → s ≠ "" →
      countHidden (createDocumentFromJson env wm outDir data).doc = 1 ∧
      (createDocumentFromJson env wm outDir data).doc.getLast? =
        some (DocNode.para s (some "Hidden") none)) := by
  cases data with
  | vNull => simp [createDocumentFromJson] at hok
  | vBool b => simp [createDocumentFromJson] at hok
  | vNum n => simp [createDocumentFromJson] at hok
  | vStr s => simp [createDocumentFromJson] at hok
  | vList xs => simp [createDocumentFromJson] at hok
  | vDict kvs =>
    cases hfind : requiredFields.find? (fun f => !(hasKey kvs f)) with
    | some f => simp [createDocumentFromJson, hfind] at hok
    | none =>
      cases htitle : dgetD kvs "title" .vNull with
      | vNull => simp [createDocumentFromJson, hfind, htitle] at hok
      | vBool b => simp [createDocumentFromJson, hfind, htitle] at hok
      | vNum n => simp [createDocumentFromJson, hfind, htitle] at hok
      | vList xs => simp [createDocumentFromJson, hfind, htitle] at hok
      | vDict kvs2 => simp [createDocumentFromJson, hfind, htitle] at hok
      | vStr t =>
        cases hcr : dispatchSections env (dgetD kvs "content" .vNull) with
        | error e => simp [createDocumentFromJson, hfind, htitle, hcr] at hok
        | ok cn =>
          cases hfn : dgetD kvs "file_name" .vNull with
          | vNull => simp [createDocumentFromJson, hfind, htitle, hcr, hfn] at hok
          | vBool b => simp [createDocumentFromJson, hfind, htitle, hcr, hfn] at hok
          | vNum n => simp [createDocumentFromJson, hfind, htitle, hcr, hfn] at hok
          | vList xs => simp [createDocumentFromJson, hfind, htitle, hcr, hfn] at hok
          | vDict kvs2 => simp [createDocumentFromJson, hfind, htitle, hcr, hfn] at hok
          | vStr fn =>
            have hres : createDocumentFromJson env wm outDir (.vDict kvs) =
                { doc := DocNode.heading t 0 :: cn ++ addWatermark wm,
                  saved := some (outDir ++ "/" ++ fn), err := none } := by
              simp [createDocumentFromJson, hfind, htitle, hcr, hfn]
            rw [hres]
            have hcn : countHidden cn = 0 :=
              countHidden_dispatchSections env _ cn hcr
            constructor
            · intro hw
              rw [addWatermark_of_not_truthy wm hw]
              simp only [List.append_nil]
              rw [← List.singleton_append, countHidden_append, hcn]
              rfl
            · intro s hs hne
              subst hs
              have hsb : (s == "") = false := by
                simpa using hne
              have hwm : addWatermark (some s) =
                  [DocNode.para s (some "Hidden") none] := by
                simp [addWatermark, hsb]
              constructor
              · rw [hwm, countHidden_append, ← List.singleton_append,
                  countHidden_append, hcn]
                rfl
              · rw [hwm]
                exact List.getLast?_concat _

/-- Witness for C5: a concrete build with a non-empty watermark has
exactly one hidden paragraph and it is the last node. -/
theorem build_watermark_witness :
    (createDocumentFromJson (fun _ => true) (some "W") "data"
      (.vDict [("title", .vStr "T"), ("file_name", .vStr "o.docx"),
               ("content", .vDict [("Intro", .vStr "Hello")])])).err = none ∧
    countHidden (createDocumentFromJson (fun _ => true) (some "W") "data"
      (.vDict [("title", .vStr "T"), ("file_name", .vStr "o.docx"),
               ("content", .vDict [("Intro", .vStr "Hello")])])).doc = 1 ∧
    (createDocumentFromJson (fun _ => true) (some "W") "data"
      (.vDict [("title", .vStr "T"), ("file_name", .vStr "o.docx"),
               ("content", .vDict [("Intro", .vStr "Hello")])])).doc.getLast? =
      some (DocNode.para "W" (some "Hidden") none) :=
  ⟨rfl,
    (build_watermark (fun _ => true) (some "W") "data"
      (.vDict [("title", .vStr "T"), ("file_name", .vStr "o.docx"),
               ("content", .vDict [("Intro", .vStr "Hello")])]) rfl).2
      "W" rfl (by decide)⟩
